import Mathlib

/-
  Verification development for the protein property tool
  (source file: AA20251102_seq.py).

  Conventions of the shallow embedding:
  * Python strings are `List Char`.
  * Streamlit display calls (st.error / st.info / st.warning) are modelled as
    an explicit list of emitted `Msg` values returned next to each result.
  * Fallible computations return `Option`.
  * Machine floats of the external Biopython library are modelled over `Rat`;
    where a library value is never inspected by any theorem below, the model
    keeps only the observable structure (totality and failure domain) and
    says so in its doc comment.
-/

namespace AASeq

/-- User-visible messages emitted by the tool, carrying the data that the
Python f-strings interpolate. -/
inductive Msg where
  | errorInvalidRange (start : Nat) (stop : Option Nat) (seqLen : Nat)
  | infoTruncated (start : Nat) (stop : Option Nat) (newLen : Nat)
  | infoTagAdded (tag : List Char) (tagLen : Nat) (totalLen : Nat)
  | warningUnknownTag (tag : List Char)
  | errorComputeFailed
  deriving DecidableEq

/-- Whether a message is an st.error call (as opposed to st.info / st.warning). -/
def Msg.isError : Msg → Bool
  | .errorInvalidRange _ _ _ => true
  | .errorComputeFailed => true
  | _ => false

/-- The label of the empty tag choice in the selectbox ("no tag"). -/
def noTagLabel : List Char := "无标签".toList

/-- The fixed tag table TAG_SEQUENCES of the source (lines 24-29). -/
def TAG_SEQUENCES (k : List Char) : Option (List Char) :=
  if k = "10his".toList then some "HHHHHHHHHH".toList
  else if k = "6his".toList then some "HHHHHH".toList
  else if k = "GST".toList then some "MSPILGYWKIKGLVQPTRLLLEYLEEKYEEHLYERDEGDKWRNKKFELGLEFPNLPYYIDGDVKLTQSMAIIRYIADKHNMLGGCPKERAEISMLEGAVLDIRYGVSRIAYSKDFETLKVDFLSKLPEMLKMFEDRLCHKTYLNGDHVTHPDFMLYDALDVVLYMDPMCLDAFPKLVCFKKRIEAIPQIDKYLKSSKYIAWPLQGWQATFGGGDHPPK".toList
  else if k = "SUMO".toList then some "MADLYKQGGKSEVHLTQLHNDLPSLPSPSTVINGLKSKIQTNQKQYSPSVQEAKPEVKPEVKPETHINLKVSDGSSEIFFKIKKTTPLRRLMEAFAKRQGKEMDSLRFLYDGIRIQADQTPEDLDMEDNDIIEAHREQIGG".toList
  else none

/-- Accumulator pass extracting the maximal digit runs of a text, left to
right; `cur` holds the digits of the run in progress, in reverse.  This is
the pure content of Python re.findall of one-or-more digits (restricted to
ASCII digits, the only ones these inputs can contain). -/
def digitRunsAux : List Char → List Char → List (List Char)
  | cur, [] => if cur.isEmpty then [] else [cur.reverse]
  | cur, c :: cs =>
    if c.isDigit then digitRunsAux (c :: cur) cs
    else if cur.isEmpty then digitRunsAux [] cs
    else cur.reverse :: digitRunsAux [] cs

/-- All maximal digit runs of a text, left to right. -/
def digitRuns (l : List Char) : List (List Char) := digitRunsAux [] l

/-- Decimal value of a digit run (most significant digit first), the pure
content of Python int() on a digit string. -/
def digitsToNat (l : List Char) : Nat :=
  l.foldl (fun acc c => 10 * acc + (c.toNat - 48)) 0

/-- parse_truncation_range (source lines 88-108).  The try block only runs
re.findall and int() on digit runs, which cannot raise, so the except branch
(and its st.error) is unreachable and the model emits no message. -/
def parse_truncation_range (t : List Char) : Option (Nat × Option Nat) :=
  if t.isEmpty then none
  else
    match digitRuns t with
    | n1 :: n2 :: _ =>
      let start := digitsToNat n1
      let stop := digitsToNat n2
      if start < stop then some (start, some stop) else none
    | [n1] => some (digitsToNat n1, none)
    | [] => none

/-- truncate_sequence (source lines 110-133).  Index arithmetic is done over
Int exactly as Python does (start - 1 may be negative and is then rejected by
the bounds check before any slicing happens); the accepted slice
sequence[start_idx:end_idx] with 0 ≤ start_idx < end_idx ≤ len is drop/take. -/
def truncate_sequence (sequence : List Char) (tr : Option (Nat × Option Nat)) :
    List Char × List Msg :=
  if sequence.isEmpty then (sequence, [])
  else
    match tr with
    | none => (sequence, [])
    | some (start, stop) =>
      let start_idx : Int := (start : Int) - 1
      let end_idx : Int :=
        match stop with
        | none => (sequence.length : Int)
        | some e => (e : Int)
      if start_idx < 0 ∨ (sequence.length : Int) < end_idx ∨ end_idx ≤ start_idx then
        (sequence, [Msg.errorInvalidRange start stop sequence.length])
      else
        let truncated_seq := (sequence.drop start_idx.toNat).take (end_idx - start_idx).toNat
        (truncated_seq, [Msg.infoTruncated start stop truncated_seq.length])

/-- add_tag_to_sequence (source lines 135-147).  Python truthiness of the
looked-up value distinguishes a present non-empty tag sequence from both a
missing key and a (never occurring) empty entry. -/
def add_tag_to_sequence (sequence : List Char) (tag : List Char) :
    List Char × List Msg :=
  if tag.isEmpty ∨ tag = noTagLabel then (sequence, [])
  else
    match TAG_SEQUENCES tag with
    | some tag_sequence =>
      if tag_sequence.isEmpty then (sequence, [Msg.warningUnknownTag tag])
      else
        let tagged_sequence := tag_sequence ++ sequence
        (tagged_sequence, [Msg.infoTagAdded tag tag_sequence.length tagged_sequence.length])
    | none => (sequence, [Msg.warningUnknownTag tag])

/-- The truncation stage of main (source lines 221-225): parse the range text
and, only when the parse produced a value, run truncate_sequence on it. -/
def truncationStage (sequence t : List Char) : List Char × List Msg :=
  match parse_truncation_range t with
  | some tr => truncate_sequence sequence (some tr)
  | none => (sequence, [])

/-! ### Property calculator (source lines 149-176, calling Bio.SeqUtils.ProtParam) -/

/-- The twenty standard amino-acid letters, the common key set of every
Biopython ProtParam lookup table. -/
def stdAA : List Char := "ACDEFGHIKLMNPQRSTVWY".toList

/-- Membership in the standard twenty letters. -/
def isStdAA (c : Char) : Bool := stdAA.contains c

/-- Modelled from the external Biopython library
(ProteinAnalysis.molar_extinction_coefficient): counts of the three
UV-absorbing residues give the pair (coefficient with all cysteines reduced,
coefficient with all cysteine pairs forming cystine disulfide bonds):
reduced = 5500·W + 1490·Y, cystine = reduced + 125·(C div 2). -/
def molar_extinction_coefficient (s : List Char) : Nat × Nat :=
  let mec_reduced := s.count 'W' * 5500 + s.count 'Y' * 1490
  let mec_cystines := mec_reduced + (s.count 'C' / 2) * 125
  (mec_reduced, mec_cystines)

/-- Modelled from the external Biopython library (IUPACData.protein_weights):
average molecular weight of each free standard amino acid; a letter outside
the table raises, modelled as none.  The decimal entries follow the library's
average-mass table; none of the theorems below inspects them, only the
domain of definition is observable. -/
def protein_weights (c : Char) : Option Rat :=
  if c = 'A' then some 89.0932 else if c = 'C' then some 121.1582
  else if c = 'D' then some 133.1027 else if c = 'E' then some 147.1293
  else if c = 'F' then some 165.1891 else if c = 'G' then some 75.0669
  else if c = 'H' then some 155.1546 else if c = 'I' then some 131.1729
  else if c = 'K' then some 146.1882 else if c = 'L' then some 131.1729
  else if c = 'M' then some 149.2124 else if c = 'N' then some 132.1184
  else if c = 'P' then some 115.1305 else if c = 'Q' then some 146.1451
  else if c = 'R' then some 174.2017 else if c = 'S' then some 105.0926
  else if c = 'T' then some 119.1197 else if c = 'V' then some 117.1463
  else if c = 'W' then some 204.2252 else if c = 'Y' then some 181.1885
  else none

/-- Sum of the residue weights of a sequence, none as soon as one residue is
outside the weight table (the first raise aborts the whole sum in Python). -/
def sumWeights : List Char → Option Rat
  | [] => some 0
  | c :: cs =>
    match protein_weights c, sumWeights cs with
    | some w, some r => some (w + r)
    | _, _ => none

/-- Modelled from the external Biopython library
(ProteinAnalysis.molecular_weight, via SeqUtils.molecular_weight with
seq type protein): sum of free amino-acid weights minus one average water
mass (18.0153) per peptide bond. -/
def molecular_weight (s : List Char) : Option Rat :=
  match sumWeights s with
  | some w => some (w - ((s.length : Rat) - 1) * 18.0153)
  | none => none

/-- Modelled from the external Biopython library
(ProteinAnalysis.isoelectric_point, a bisection over IEEE floats of the net
charge computed from residue counts and a fixed pKa table).  The search does
arithmetic on counts only and cannot raise for any input string, so the model
keeps its totality; its numeric value is inspected by no theorem below and is
abstracted to the bisection's initial pH. -/
def isoelectric_point (_s : List Char) : Rat := 7.775

/-- Modelled from the external Biopython library (ProtParamData.DIWV): the
dipeptide instability weight matrix is defined exactly on ordered pairs of the
twenty standard residues and a lookup outside that domain raises KeyError.
The numeric entries are inspected by no theorem below and are abstracted;
only the domain of definition is observable. -/
def diwv (a b : Char) : Option Rat :=
  if isStdAA a && isStdAA b then some 1 else none

/-- Sum of the dipeptide weights over all consecutive pairs, none as soon as
one pair is outside the matrix. -/
def instabilitySum : List Char → Option Rat
  | a :: b :: rest =>
    match diwv a b, instabilitySum (b :: rest) with
    | some v, some r => some (v + r)
    | _, _ => none
  | _ => some 0

/-- Modelled from the external Biopython library
(ProteinAnalysis.instability_index): the dipeptide sum scaled by 10/length. -/
def instability_index (s : List Char) : Option Rat :=
  match instabilitySum s with
  | some sc => some (10 / (s.length : Rat) * sc)
  | none => none

/-- Modelled from the external Biopython library (ProtParamData.kd, the
Kyte-Doolittle hydropathy scale); a letter outside the table raises. -/
def kd (c : Char) : Option Rat :=
  if c = 'A' then some 1.8 else if c = 'R' then some (-4.5)
  else if c = 'N' then some (-3.5) else if c = 'D' then some (-3.5)
  else if c = 'C' then some 2.5 else if c = 'Q' then some (-3.5)
  else if c = 'E' then some (-3.5) else if c = 'G' then some (-0.4)
  else if c = 'H' then some (-3.2) else if c = 'I' then some 4.5
  else if c = 'L' then some 3.8 else if c = 'K' then some (-3.9)
  else if c = 'M' then some 1.9 else if c = 'F' then some 2.8
  else if c = 'P' then some (-1.6) else if c = 'S' then some (-0.8)
  else if c = 'T' then some (-0.7) else if c = 'W' then some (-0.9)
  else if c = 'Y' then some (-1.3) else if c = 'V' then some 4.2
  else none

/-- Sum of the hydropathy values of a sequence, none on an unknown residue. -/
def kdSum : List Char → Option Rat
  | [] => some 0
  | c :: cs =>
    match kd c, kdSum cs with
    | some v, some r => some (v + r)
    | _, _ => none

/-- Modelled from the external Biopython library (ProteinAnalysis.gravy):
mean hydropathy over the sequence. -/
def gravy (s : List Char) : Option Rat :=
  match kdSum s with
  | some t => some (t / (s.length : Rat))
  | none => none

/-- The five fields of the tool's result, each absent (none) when no value was
produced: molecular weight in kD, isoelectric point, extinction coefficient,
instability index, GRAVY. -/
structure Report where
  molecular_weight_kd : Option Rat
  isoelectric_pt : Option Rat
  extinction_coeff : Option Nat
  instability : Option Rat
  gravy_val : Option Rat
  deriving DecidableEq

/-- The all-absent report (Python: None, None, None, None, None). -/
def noneReport : Report := ⟨none, none, none, none, none⟩

/-- A report with every one of the five fields present. -/
def Report.allSome (r : Report) : Prop :=
  r.molecular_weight_kd.isSome = true ∧ r.isoelectric_pt.isSome = true ∧
  r.extinction_coeff.isSome = true ∧ r.instability.isSome = true ∧
  r.gravy_val.isSome = true

/-- The body of the try block of calculate_protein_properties (source lines
154-172), in source order: ProteinAnalysis upper-cases its input, then
molecular weight (may raise), isoelectric point (total), extinction
coefficient taken at tuple index 0 (total), instability index (may raise),
GRAVY (may raise); the first raise aborts everything. -/
def computeAll (sequence : List Char) : Option (Rat × Rat × Nat × Rat × Rat) :=
  let s := sequence.map Char.toUpper
  match molecular_weight s with
  | none => none
  | some mw0 =>
    let mw := mw0 / 1000
    let ip := isoelectric_point s
    let ec := (molar_extinction_coefficient s).fst
    match instability_index s with
    | none => none
    | some ii =>
      match gravy s with
      | none => none
      | some g => some (mw, ip, ec, ii, g)

/-- The non-empty branch of calculate_protein_properties: either all five
values (no message) or the except branch (st.error and five None). -/
def calcBody (sequence : List Char) : Report × List Msg :=
  match computeAll sequence with
  | some (mw, ip, ec, ii, g) => (⟨some mw, some ip, some ec, some ii, some g⟩, [])
  | none => (noneReport, [Msg.errorComputeFailed])

/-- calculate_protein_properties (source lines 149-176). -/
def calculate_protein_properties (sequence : List Char) : Report × List Msg :=
  if sequence.isEmpty then (noneReport, []) else calcBody sequence

/-! ### Identifier resolver (source lines 51-64) -/

/-- An ASCII upper-case letter, the character class A to Z of the accession
regular expression. -/
def isUpperAZ (c : Char) : Bool := 'A' ≤ c && c ≤ 'Z'

/-- The character class holding exactly O, P and Q. -/
def isOPQ (c : Char) : Bool := c = 'O' || c = 'P' || c = 'Q'

/-- The character class A to N and R to Z (upper-case letters except O, P, Q). -/
def isANRZ (c : Char) : Bool := isUpperAZ c && !(isOPQ c)

/-- The character class of upper-case letters and digits. -/
def isAlnumU (c : Char) : Bool := isUpperAZ c || c.isDigit

/-- The four-character group of the second accession template: one letter,
two letters-or-digits, one digit. -/
def group4 : List Char → Bool
  | [a, b, c, d] => isUpperAZ a && isAlnumU b && isAlnumU c && d.isDigit
  | _ => false

/-- The first alternative of the accession regular expression matched at the
start of the text: letter of OPQ, digit, three letters-or-digits, digit.  In
the source pattern the end anchor binds only to the second alternative, so
this alternative accepts any continuation after its six characters. -/
def matchAlt1AtStart : List Char → Bool
  | c0 :: c1 :: c2 :: c3 :: c4 :: c5 :: _ =>
    isOPQ c0 && c1.isDigit && isAlnumU c2 && isAlnumU c3 && isAlnumU c4 && c5.isDigit
  | _ => false

/-- The second alternative of the accession regular expression, matched to the
end of the text: a letter of A-N or R-Z, a digit, then one or two
four-character groups.  Each group has fixed length four, so the counted
repetition is determined by the total length (6 or 10). -/
def matchAlt2Full (l : List Char) : Bool :=
  match l with
  | c0 :: c1 :: rest =>
    isANRZ c0 && c1.isDigit &&
      (match rest with
       | [a, b, c, d] => group4 [a, b, c, d]
       | [a, b, c, d, e, f, g, h] => group4 [a, b, c, d] && group4 [e, f, g, h]
       | _ => false)
  | _ => false

/-- The test re.match of the accession pattern performed by
get_protein_sequence (source line 54): match anchored at position 0, first
alternative without end anchor, second alternative with it. -/
def uniprotIdMatch (l : List Char) : Bool := matchAlt1AtStart l || matchAlt2Full l

/-- get_protein_sequence bypasses search_uniprot_id and uses the text itself
as the accession exactly when the pattern test succeeds (source lines 53-64). -/
def bypassesSearch (l : List Char) : Bool := uniprotIdMatch l

/-- The first canonical-accession template anchored on both sides: exactly six
characters matching letter of OPQ, digit, three letters-or-digits, digit. -/
def opqTemplate6 : List Char → Bool
  | [c0, c1, c2, c3, c4, c5] =>
    isOPQ c0 && c1.isDigit && isAlnumU c2 && isAlnumU c3 && isAlnumU c4 && c5.isDigit
  | _ => false

/-- Modelled from the spec: "a canonical accession (fixed lexical pattern: one
of several letter/digit templates, length 6 or 10)" — the entire text matches
one of the two templates, so both are anchored on both sides here. -/
def specCanonicalAccession (l : List Char) : Bool :=
  opqTemplate6 l || matchAlt2Full l

/-! ### Sequence fetcher fallback (source lines 66-86) -/

/-- A character Python str.strip() removes (ASCII whitespace). -/
def pySpace (c : Char) : Bool :=
  c = ' ' || c = '\t' || c = '\n' || c = '\r' || c = '\x0b' || c = '\x0c'

/-- Python str.strip(): drop leading and trailing whitespace. -/
def pyStrip (l : List Char) : List Char :=
  ((l.dropWhile pySpace).reverse.dropWhile pySpace).reverse

/-- The FASTA parse of the fallback path (source lines 79-80):
response.text.strip().split of newline, join of all lines after the first. -/
def fastaParse (body : List Char) : List Char :=
  (((pyStrip body).splitOn '\n').drop 1).flatten

/-- The fallback retrieval (source lines 73-86): none models a transport
exception; a response is used only when its status code is 200. -/
def fetchFallback : Option (Nat × List Char) → Option (List Char)
  | none => none
  | some (status, body) => if status = 200 then some (fastaParse body) else none

/-- The fetch part of get_protein_sequence (source lines 66-86): the primary
structured-record path (none models any raised error), else the fallback. -/
def fetchSequence (primary : Option (List Char)) (fb : Option (Nat × List Char)) :
    Option (List Char) :=
  match primary with
  | some s => some s
  | none => fetchFallback fb

/-- Modelled from the spec: "the response is parsed by discarding the first
line (descriptive header) and concatenating all remaining lines" — lines of
the raw response text, split on newline. -/
def specFastaTail (body : List Char) : List Char :=
  ((body.splitOn '\n').drop 1).flatten

/-! ### Pipeline composition (source lines 210-232) -/

/-- The sequence handed to the property calculator by main: the truncation
stage, then the tag stage when a tag other than the no-tag label is selected
(source lines 220-229). -/
def pipelineSequence (sequence truncText tagSel : List Char) : List Char :=
  let processed := (truncationStage sequence truncText).fst
  if tagSel = noTagLabel then processed else (add_tag_to_sequence processed tagSel).fst

/-! ### Decimal rendering, to speak about range texts of the shape "a-b" -/

/-- The character of a decimal digit value. -/
def digitChar (d : Nat) : Char := Char.ofNat (48 + d)

/-- Decimal digit characters of a positive number, most significant first;
the first argument is fuel bounding the recursion depth. -/
def natCharsAux : Nat → Nat → List Char
  | 0, _ => []
  | _ + 1, 0 => []
  | fuel + 1, n => natCharsAux fuel (n / 10) ++ [digitChar (n % 10)]

/-- Decimal digit characters of a number, as Python str() renders it. -/
def natChars (n : Nat) : List Char :=
  if n = 0 then ['0'] else natCharsAux n n

/-- The range text "a-b" built from two numbers. -/
def rangeText (a b : Nat) : List Char := natChars a ++ '-' :: natChars b

end AASeq

namespace AASeq

/-! ### Helper lemmas -/

theorem digitRunsAux_append (l : List Char) (hl : ∀ c ∈ l, c.isDigit = true) :
    ∀ cur rest : List Char,
      digitRunsAux cur (l ++ rest) = digitRunsAux (l.reverse ++ cur) rest := by
  induction l with
  | nil => intro cur rest; simp
  | cons c cs ih =>
    intro cur rest
    have hc : c.isDigit = true := hl c (by simp)
    have hcs : ∀ x ∈ cs, x.isDigit = true := fun x hx => hl x (by simp [hx])
    simp only [List.cons_append, digitRunsAux, hc, if_true]
    rw [show cs.append rest = cs ++ rest from rfl, ih hcs (c :: cur) rest]
    simp [List.append_assoc]

theorem digitRuns_single (r : List Char) (h : ∀ c ∈ r, c.isDigit = true)
    (hne : r ≠ []) : digitRuns r = [r] := by
  unfold digitRuns
  have := digitRunsAux_append r h [] []
  rw [List.append_nil, List.append_nil] at this
  rw [this]
  have hrev : r.reverse.isEmpty = false := by
    cases r with
    | nil => exact absurd rfl hne
    | cons a as => simp [List.isEmpty_iff]
  simp [digitRunsAux, hrev]

theorem digitRuns_pair (r1 r2 : List Char) (h1 : ∀ c ∈ r1, c.isDigit = true)
    (h2 : ∀ c ∈ r2, c.isDigit = true) (n1 : r1 ≠ []) (n2 : r2 ≠ []) :
    digitRuns (r1 ++ '-' :: r2) = [r1, r2] := by
  unfold digitRuns
  rw [digitRunsAux_append r1 h1 [] ('-' :: r2), List.append_nil]
  have hrev : r1.reverse.isEmpty = false := by
    cases r1 with
    | nil => exact absurd rfl n1
    | cons a as => simp [List.isEmpty_iff]
  have hdash : ('-').isDigit = false := by decide
  simp only [digitRunsAux, hdash, Bool.false_eq_true, if_false, hrev, List.reverse_reverse]
  rw [show digitRunsAux [] r2 = digitRuns r2 from rfl, digitRuns_single r2 h2 n2]

theorem digitChar_isDigit (d : Nat) (hd : d < 10) : (digitChar d).isDigit = true := by
  interval_cases d <;> decide

theorem digitChar_toNat (d : Nat) (hd : d < 10) : (digitChar d).toNat = 48 + d := by
  interval_cases d <;> decide

theorem natCharsAux_digits (fuel n : Nat) :
    ∀ c ∈ natCharsAux fuel n, c.isDigit = true := by
  induction fuel generalizing n with
  | zero => intro c hc; simp [natCharsAux] at hc
  | succ fuel ih =>
    intro c hc
    cases n with
    | zero => simp [natCharsAux] at hc
    | succ m =>
      simp only [natCharsAux, List.mem_append, List.mem_singleton] at hc
      rcases hc with hc | rfl
      · exact ih _ c hc
      · exact digitChar_isDigit _ (Nat.mod_lt _ (by omega))

theorem natChars_digits (n : Nat) : ∀ c ∈ natChars n, c.isDigit = true := by
  unfold natChars
  split
  · intro c hc; simp at hc; subst hc; decide
  · exact natCharsAux_digits n n

theorem natCharsAux_ne_nil (fuel n : Nat) (hn : n ≠ 0) (hf : fuel ≠ 0) :
    natCharsAux fuel n ≠ [] := by
  cases fuel with
  | zero => exact absurd rfl hf
  | succ f =>
    cases n with
    | zero => exact absurd rfl hn
    | succ m => simp [natCharsAux]

theorem natChars_ne_nil (n : Nat) : natChars n ≠ [] := by
  unfold natChars
  split
  · simp
  · exact natCharsAux_ne_nil n n (by assumption) (by assumption)

theorem digitsToNat_append (l : List Char) (c : Char) :
    digitsToNat (l ++ [c]) = 10 * digitsToNat l + (c.toNat - 48) := by
  unfold digitsToNat
  rw [List.foldl_append]
  rfl

theorem digitsToNat_natCharsAux (fuel n : Nat) (h : n ≤ fuel) :
    digitsToNat (natCharsAux fuel n) = n := by
  induction fuel generalizing n with
  | zero =>
    have : n = 0 := by omega
    subst this
    rfl
  | succ fuel ih =>
    cases n with
    | zero => rfl
    | succ m =>
      rw [natCharsAux, digitsToNat_append,
        ih ((m + 1) / 10) (by omega),
        digitChar_toNat _ (Nat.mod_lt _ (by omega))]
      all_goals omega

theorem digitsToNat_natChars (n : Nat) : digitsToNat (natChars n) = n := by
  unfold natChars
  split
  · rename_i h; subst h; rfl
  · exact digitsToNat_natCharsAux n n le_rfl

theorem digitRuns_rangeText (a b : Nat) :
    digitRuns (rangeText a b) = [natChars a, natChars b] :=
  digitRuns_pair _ _ (natChars_digits a) (natChars_digits b)
    (natChars_ne_nil a) (natChars_ne_nil b)

theorem rangeText_ne_nil (a b : Nat) : (rangeText a b).isEmpty = false := by
  unfold rangeText
  cases h : natChars a with
  | nil => exact absurd h (natChars_ne_nil a)
  | cons x xs => simp

theorem parse_rangeText (a b : Nat) (hab : a < b) :
    parse_truncation_range (rangeText a b) = some (a, some b) := by
  unfold parse_truncation_range
  rw [rangeText_ne_nil, digitRuns_rangeText]
  simp [digitsToNat_natChars, hab]

theorem truncate_sequence_valid (s : List Char) (a b : Nat)
    (ha : 1 ≤ a) (hab : a < b) (hb : b ≤ s.length) :
    truncate_sequence s (some (a, some b)) =
      ((s.drop (a - 1)).take (b - a + 1),
       [Msg.infoTruncated a (some b) ((s.drop (a - 1)).take (b - a + 1)).length]) := by
  have hsne : s.isEmpty = false := by
    cases s with
    | nil => simp at hb; omega
    | cons x xs => simp
  unfold truncate_sequence
  rw [hsne]
  have hcond : ¬ ((a : Int) - 1 < 0 ∨ (s.length : Int) < (b : Int) ∨
      (b : Int) ≤ (a : Int) - 1) := by
    omega
  simp only [Bool.false_eq_true, if_false, hcond, ite_false]
  have h1 : ((a : Int) - 1).toNat = a - 1 := by omega
  have h2 : ((b : Int) - ((a : Int) - 1)).toNat = b - a + 1 := by omega
  rw [h1, h2]

theorem list_slice_infix (s : List Char) (i k : Nat) : (s.drop i).take k <:+: s :=
  ⟨s.take i, (s.drop i).drop k, by
    rw [List.append_assoc, List.take_append_drop, List.take_append_drop]⟩

theorem truncate_sequence_ne_nil (s : List Char) (tr : Option (Nat × Option Nat))
    (h : s ≠ []) : (truncate_sequence s tr).fst ≠ [] := by
  have hsne : s.isEmpty = false := by
    cases s with
    | nil => exact absurd rfl h
    | cons x xs => simp
  unfold truncate_sequence
  rw [hsne]
  rcases tr with _ | ⟨start, stop⟩
  · exact h
  · rcases stop with _ | e <;>
    · dsimp only
      simp only [Bool.false_eq_true, if_false]
      split
      · exact h
      · rename_i hcond
        simp only [not_or, not_lt, not_le] at hcond
        rw [← List.length_pos_iff_ne_nil, List.length_take, List.length_drop]
        omega

theorem add_tag_ne_nil (s tag : List Char) (h : s ≠ []) :
    (add_tag_to_sequence s tag).fst ≠ [] := by
  unfold add_tag_to_sequence
  split
  · exact h
  · rcases htag : TAG_SEQUENCES tag with _ | ts
    · exact h
    · simp only
      split
      · exact h
      · simp [h]

theorem truncationStage_ne_nil (s t : List Char) (h : s ≠ []) :
    (truncationStage s t).fst ≠ [] := by
  unfold truncationStage
  rcases parse_truncation_range t with _ | tr
  · exact h
  · exact truncate_sequence_ne_nil s _ h

theorem pipelineSequence_ne_nil (s t tag : List Char) (h : s ≠ []) :
    pipelineSequence s t tag ≠ [] := by
  unfold pipelineSequence
  split
  · exact truncationStage_ne_nil s t h
  · exact add_tag_ne_nil _ tag (truncationStage_ne_nil s t h)

theorem calculate_nonempty (s : List Char) (h : s ≠ []) :
    calculate_protein_properties s = calcBody s := by
  have hsne : s.isEmpty = false := by
    cases s with
    | nil => exact absurd rfl h
    | cons x xs => simp
  unfold calculate_protein_properties
  rw [hsne]
  simp

theorem parse_ge_none (t r1 r2 : List Char) (rest : List (List Char))
    (hruns : digitRuns t = r1 :: r2 :: rest)
    (hge : digitsToNat r2 ≤ digitsToNat r1) :
    parse_truncation_range t = none := by
  have ht : t.isEmpty = false := by
    cases t with
    | nil => simp [digitRuns, digitRunsAux] at hruns
    | cons a as => simp
  unfold parse_truncation_range
  rw [ht, hruns]
  simp [Nat.not_lt.mpr hge]

theorem tag_key_facts (tag ts : List Char) (h : TAG_SEQUENCES tag = some ts) :
    tag.isEmpty = false ∧ tag ≠ noTagLabel ∧ ts.isEmpty = false := by
  unfold TAG_SEQUENCES at h
  split_ifs at h with h1 h2 h3 h4
  · injection h with h'; subst h'; subst h1; exact ⟨by decide, by decide, by decide⟩
  · injection h with h'; subst h'; subst h2; exact ⟨by decide, by decide, by decide⟩
  · injection h with h'; subst h'; subst h3; exact ⟨by decide, by decide, by decide⟩
  · injection h with h'; subst h'; subst h4; exact ⟨by decide, by decide, by decide⟩

/-! ### Claim theorems -/

/-- C1 (refuted; the code contradicts its own comment): the extinction
coefficient field of the report is tuple index 0 of the Biopython pair,
whose first component is the all-cysteines-reduced variant and whose second
is the disulfide-bonded (cystine) variant; the source comment on line 163
announces the disulfide-bonded choice.  At the sequence "CC" the report
carries 0 (the reduced value) while the disulfide-bonded value is 125. -/
theorem c1_extinction_field_is_reduced_variant :
    (calculate_protein_properties "CC".toList).fst.extinction_coeff =
      some (molar_extinction_coefficient "CC".toList).fst ∧
    (molar_extinction_coefficient "CC".toList).fst = 0 ∧
    (molar_extinction_coefficient "CC".toList).snd = 125 :=
  ⟨by decide, by decide, by decide⟩

/-- C2 counterexample: at sequence "MKVT" and range text "10-5" (first digit
run 10 ≥ second digit run 5) the truncation stage returns the sequence
unchanged but emits no message at all — in particular no error message
describing the text as unusable. -/
theorem c2_counterexample_silent_skip :
    truncationStage "MKVT".toList "10-5".toList = ("MKVT".toList, []) ∧
    (truncationStage "MKVT".toList "10-5".toList).snd.any Msg.isError = false := by
  decide

/-- C2 amended: for every sequence S and range text whose first two maximal
digit runs a, b satisfy a ≥ b, the truncation stage returns S unchanged and
reports nothing: the invalid parse is treated silently as if no range had
been entered, so no error about the text reaches the user. -/
theorem c2_amended_silent_identity (s t r1 r2 : List Char)
    (rest : List (List Char)) (hruns : digitRuns t = r1 :: r2 :: rest)
    (hge : digitsToNat r2 ≤ digitsToNat r1) :
    truncationStage s t = (s, []) := by
  unfold truncationStage
  rw [parse_ge_none t r1 r2 rest hruns hge]

theorem c2_amended_witness :
    digitRuns "10-5".toList = ['1', '0'] :: ['5'] :: [] ∧
    digitsToNat ['5'] ≤ digitsToNat ['1', '0'] ∧
    truncationStage "MKVTA".toList "10-5".toList = ("MKVTA".toList, []) :=
  ⟨by decide, by decide,
    c2_amended_silent_identity "MKVTA".toList "10-5".toList ['1', '0'] ['5'] []
      (by decide) (by decide)⟩

/-- C3 counterexample: the text "P12345XYZ" bypasses the search call (the
first alternative of the accession pattern carries no end anchor, so six
matching characters at the start suffice) although the entire text matches
no canonical accession template of length 6 or 10. -/
theorem c3_counterexample_prefix_bypass :
    bypassesSearch "P12345XYZ".toList = true ∧
    specCanonicalAccession "P12345XYZ".toList = false := by
  decide

/-- C3 amended: the resolver bypasses the search call exactly when the first
six characters of the text match the OPQ template (any continuation is
permitted) or the entire text matches the second template (length 6 or 10);
whole-text matching is required only for the second template. -/
theorem c3_amended_bypass_characterization (l : List Char) :
    bypassesSearch l = (opqTemplate6 (l.take 6) || matchAlt2Full l) := by
  rcases l with _ | ⟨a, l⟩
  · rfl
  rcases l with _ | ⟨b, l⟩
  · rfl
  rcases l with _ | ⟨c, l⟩
  · rfl
  rcases l with _ | ⟨d, l⟩
  · rfl
  rcases l with _ | ⟨e, l⟩
  · rfl
  rcases l with _ | ⟨f, l⟩
  · rfl
  rfl

/-- C4 counterexample: the range text "0-5" parses to a TruncationRange with
start 0, violating the invariant start ≥ 1. -/
theorem c4_counterexample_start_zero :
    parse_truncation_range "0-5".toList = some (0, some 5) ∧ ¬ (1 ≤ 0) := by
  decide

/-- C4 amended: every TruncationRange produced by parsing satisfies
start < end when the end is present; the parser does not enforce start ≥ 1
(a digit run may be 0). -/
theorem c4_amended_start_lt_stop (t : List Char) (a b : Nat)
    (h : parse_truncation_range t = some (a, some b)) : a < b := by
  unfold parse_truncation_range at h
  by_cases ht : t.isEmpty
  · rw [if_pos ht] at h; exact absurd h (by simp)
  · rw [if_neg ht] at h
    rcases hruns : digitRuns t with _ | ⟨n1, _ | ⟨n2, rest⟩⟩
    · rw [hruns] at h; exact absurd h (by simp)
    · rw [hruns] at h; exact absurd h (by simp)
    · rw [hruns] at h
      dsimp only at h
      by_cases hlt : digitsToNat n1 < digitsToNat n2
      · rw [if_pos hlt] at h
        simp only [Option.some.injEq, Prod.mk.injEq] at h
        obtain ⟨h1, h2⟩ := h
        subst h1; subst h2
        exact hlt
      · rw [if_neg hlt] at h; exact absurd h (by simp)

theorem c4_amended_witness :
    parse_truncation_range "2-5".toList = some (2, some 5) ∧ 2 < 5 :=
  ⟨by decide, c4_amended_start_lt_stop "2-5".toList 2 5 (by decide)⟩

/-- C5: for every sequence S and numbers a, b with 1 ≤ a < b ≤ len S,
truncating S with the range text "a-b" returns the 1-based inclusive slice
S[a-1 : b], whose length is b - a + 1. -/
theorem c5_truncate_range_slice (s : List Char) (a b : Nat)
    (ha : 1 ≤ a) (hab : a < b) (hb : b ≤ s.length) :
    (truncationStage s (rangeText a b)).fst = (s.drop (a - 1)).take (b - a + 1) ∧
    ((truncationStage s (rangeText a b)).fst).length = b - a + 1 := by
  unfold truncationStage
  rw [parse_rangeText a b hab]
  dsimp only
  rw [truncate_sequence_valid s a b ha hab hb]
  refine ⟨rfl, ?_⟩
  dsimp only
  rw [List.length_take, List.length_drop]
  omega

theorem c5_witness :
    1 ≤ 2 ∧ 2 < 4 ∧ 4 ≤ "ABCDEF".toList.length ∧
    ((truncationStage "ABCDEF".toList (rangeText 2 4)).fst =
        ("ABCDEF".toList.drop 1).take 3 ∧
      ((truncationStage "ABCDEF".toList (rangeText 2 4)).fst).length = 3) :=
  ⟨by decide, by decide, by decide,
    c5_truncate_range_slice "ABCDEF".toList 2 4 (by decide) (by decide) (by decide)⟩

/-- C6: for every sequence S and every tag name present in the fixed tag
table, fusion returns the tag's literal sequence prepended to S: the result
is tagSeq ++ S, its length is the sum of lengths, the tag sequence is its
prefix and S its suffix. -/
theorem c6_fuse_prepends_tag (s tag ts : List Char)
    (h : TAG_SEQUENCES tag = some ts) :
    (add_tag_to_sequence s tag).fst = ts ++ s ∧
    (add_tag_to_sequence s tag).fst.length = ts.length + s.length ∧
    ts <+: (add_tag_to_sequence s tag).fst ∧
    s <:+ (add_tag_to_sequence s tag).fst := by
  obtain ⟨hg1, hg2, hts⟩ := tag_key_facts tag ts h
  unfold add_tag_to_sequence
  rw [if_neg (by simp [hg1, hg2]), h]
  dsimp only
  rw [if_neg (by simp [hts])]
  exact ⟨rfl, List.length_append _ _, ⟨s, rfl⟩, ⟨ts, rfl⟩⟩

theorem c6_witness :
    TAG_SEQUENCES "10his".toList = some "HHHHHHHHHH".toList ∧
    ((add_tag_to_sequence "MA".toList "10his".toList).fst =
        "HHHHHHHHHH".toList ++ "MA".toList ∧
      (add_tag_to_sequence "MA".toList "10his".toList).fst.length =
        "HHHHHHHHHH".toList.length + "MA".toList.length ∧
      "HHHHHHHHHH".toList <+: (add_tag_to_sequence "MA".toList "10his".toList).fst ∧
      "MA".toList <:+ (add_tag_to_sequence "MA".toList "10his".toList).fst) :=
  ⟨by decide,
    c6_fuse_prepends_tag "MA".toList "10his".toList "HHHHHHHHHH".toList (by decide)⟩

/-- C7: the property calculator is all-or-nothing: on empty input it returns
the all-absent report with no message, and every result has either all five
fields absent or all five fields present — never a partial report. -/
theorem c7_all_or_nothing (s : List Char) :
    (s = [] → calculate_protein_properties s = (noneReport, [])) ∧
    ((calculate_protein_properties s).fst = noneReport ∨
      (calculate_protein_properties s).fst.allSome) := by
  constructor
  · rintro rfl; rfl
  · unfold calculate_protein_properties
    by_cases hs : s.isEmpty
    · rw [if_pos hs]; exact Or.inl rfl
    · rw [if_neg hs]
      unfold calcBody
      rcases hc : computeAll s with _ | ⟨mw, ip, ec, ii, g⟩
      · exact Or.inl rfl
      · exact Or.inr ⟨rfl, rfl, rfl, rfl, rfl⟩

theorem c7_witness :
    calculate_protein_properties [] = (noneReport, []) ∧
    ((calculate_protein_properties []).fst = noneReport ∨
      (calculate_protein_properties []).fst.allSome) :=
  ⟨(c7_all_or_nothing []).1 rfl, (c7_all_or_nothing []).2⟩

/-- C8 counterexample: on a fallback response beginning with a blank line the
code returns the concatenation of the lines after the first of the STRIPPED
text, dropping the real first line: at body "\nHEADER\nAB" the fetcher
returns "AB" while the concatenation of all lines of the response after the
first is "HEADERAB". -/
theorem c8_counterexample_leading_blank :
    fetchSequence none (some (200, "\nHEADER\nAB".toList)) = some "AB".toList ∧
    specFastaTail "\nHEADER\nAB".toList = "HEADERAB".toList ∧
    "AB".toList ≠ "HEADERAB".toList := by
  decide

/-- C8 amended: when the primary fetch fails and the fallback responds with
status 200, the returned sequence is the concatenation of all lines after the
first of the whitespace-STRIPPED response text (the code strips before
splitting, which differs from the raw response only when the response carries
leading or trailing whitespace). -/
theorem c8_amended_strip_then_concat_tail (body : List Char) :
    fetchSequence none (some (200, body)) = some (specFastaTail (pyStrip body)) := by
  simp [fetchSequence, fetchFallback, fastaParse, specFastaTail]

/-- C9: for every sequence and every parsed truncation range, including
invalid ones, the truncation operation returns a contiguous substring of its
input — the validated slice or the input itself. -/
theorem c9_truncate_returns_infix (s : List Char)
    (tr : Option (Nat × Option Nat)) : (truncate_sequence s tr).fst <:+: s := by
  unfold truncate_sequence
  by_cases hs : s.isEmpty
  · rw [if_pos hs]
  · rw [if_neg hs]
    rcases tr with _ | ⟨start, stop⟩
    · exact List.infix_rfl
    · dsimp only
      split
      · exact List.infix_rfl
      · exact list_slice_infix s _ _

/-- C10: truncation and tag fusion preserve non-emptiness, so when the
fetched sequence is non-empty the pipeline hands the property calculator a
non-empty sequence and the calculator's empty-input branch is never taken
(the calculator's result is the non-empty branch calcBody). -/
theorem c10_nonempty_pipeline (s truncText tagSel : List Char)
    (tr : Option (Nat × Option Nat)) (h : s ≠ []) :
    (truncate_sequence s tr).fst ≠ [] ∧
    (add_tag_to_sequence s tagSel).fst ≠ [] ∧
    pipelineSequence s truncText tagSel ≠ [] ∧
    calculate_protein_properties (pipelineSequence s truncText tagSel) =
      calcBody (pipelineSequence s truncText tagSel) :=
  ⟨truncate_sequence_ne_nil s tr h, add_tag_ne_nil s tagSel h,
    pipelineSequence_ne_nil s truncText tagSel h,
    calculate_nonempty _ (pipelineSequence_ne_nil s truncText tagSel h)⟩

theorem c10_witness :
    "M".toList ≠ ([] : List Char) ∧
    ((truncate_sequence "M".toList (some (5, some 9))).fst ≠ [] ∧
      (add_tag_to_sequence "M".toList "GST".toList).fst ≠ [] ∧
      pipelineSequence "M".toList "2-3".toList "GST".toList ≠ [] ∧
      calculate_protein_properties (pipelineSequence "M".toList "2-3".toList "GST".toList) =
        calcBody (pipelineSequence "M".toList "2-3".toList "GST".toList)) :=
  ⟨by decide,
    c10_nonempty_pipeline "M".toList "2-3".toList "GST".toList (some (5, some 9))
      (by decide)⟩

end AASeq
